import Mathlib

/-!
Verification of the burst-segmented raster addressing and radiometric
normalization engine of the `sct` repository (`sct/io/quality_input_from_iceye_product.py`
and `sct/io/quality_input_from_asar_product.py`).

The shallow embedding below translates the channel-manager methods into pure
Lean functions.  Times are modeled as exact rationals (seconds relative to an
arbitrary epoch; `PreciseDateTime` arithmetic is affine, so this preserves all
the algebraic structure the claims are about).  Image samples are modeled as
exact rationals as well, so dtype casts (`astype(float64)`) are value
preserving.  External collaborators (the raw raster reader, the radiometric
conversion function, the inverse geocoder, the ground/slant conversion
surfaces) are passed in as explicit function parameters, mirroring the
injection points of the Python code.  Python exceptions become `Except`
results; a list index that Python would raise `IndexError` on is modeled with
`List.getD` and guarded by hypotheses where the claims need validity, except
for the eager `bursts_start_times[0]` access of `times_to_burst_association`,
which is reachable with an empty array and is therefore modeled as an explicit
error.
-/

namespace SCT

/-- Projection of a channel (`SARProjection` enum of arepyextras.quality). -/
inductive SARProjection where
  | slant_range
  | ground_range
deriving DecidableEq

/-- Radiometric quantity of a channel (`SARRadiometricQuantity` enum). -/
inductive SARRadiometricQuantity where
  | beta_nought
  | sigma_nought
  | gamma_nought
deriving DecidableEq

/-- Raster metadata of a channel (`raster_info` of the parsed channel metadata). -/
structure RasterInfo where
  lines : ℕ
  samples : ℕ
  lines_start : ℚ
  lines_step : ℚ
  samples_start : ℚ
  samples_step : ℚ

/-- Burst metadata of a channel (`burst_info` of the parsed channel metadata).
`azimuth_start_times` is the per-burst azimuth start time array. -/
structure BurstInfo where
  num : ℕ
  lines_per_burst : ℕ
  azimuth_start_times : List ℚ

/-- Ground/slant conversion surfaces (`coordinate_conversions` collaborator).
Each takes an azimuth time and the value to convert. -/
structure CoordinateConversions where
  evaluate_ground_to_slant : ℚ → ℚ → ℚ
  evaluate_slant_to_ground : ℚ → ℚ → ℚ

/-- The geometric state of a channel manager used by the pixel/time converter:
raster and burst metadata, projection, and the conversion surfaces.  In the
Python constructors `burst_info` is always dereferenced (`burst_info.num`), so
it is plain here; the association functions additionally accept the
`burst_info is None` case through an `Option` at the function boundary. -/
structure ChannelGeometry where
  raster_info : RasterInfo
  burst_info : BurstInfo
  projection : SARProjection
  coordinate_conversions : CoordinateConversions

/-- Embedding of `_compute_azimuth_axis`: with bursts, concatenate per-burst
sequences starting at each burst azimuth start time; without bursts, a single
evenly spaced sequence from `lines_start`. -/
def computeAzimuthAxis (ri : RasterInfo) (bi : BurstInfo) : List ℚ :=
  if 0 < bi.num then
    ((List.range bi.num).map fun (brst : ℕ) =>
      (List.range bi.lines_per_burst).map fun (k : ℕ) =>
        bi.azimuth_start_times.getD brst 0 + (k : ℚ) * ri.lines_step).flatten
  else
    (List.range ri.lines).map fun (k : ℕ) => (k : ℚ) * ri.lines_step + ri.lines_start

/-- Embedding of `self._az_time_half_swath = azimuth_axis[size // 2]` (the
`mid_azimuth_time` property). -/
def midAzimuthTime (ch : ChannelGeometry) : ℚ :=
  let ax := computeAzimuthAxis ch.raster_info ch.burst_info
  ax.getD (ax.length / 2) 0

/-- Index and value of the first minimum among the non-negative entries of a
list, scanning left to right; `none` when every entry is negative.  This is the
semantics of `np.ma.masked_less(x, 0).argmin()` restricted to the unmasked
entries (ties resolve to the first occurrence). -/
def argminNonneg : List ℚ → Option (ℕ × ℚ)
  | [] => none
  | x :: xs =>
    match argminNonneg xs with
    | none => if 0 ≤ x then some (0, x) else none
    | some (j, m) =>
      if 0 ≤ x then (if x ≤ m then some (0, x) else some (j + 1, m))
      else some (j + 1, m)

/-- Embedding of `np.ma.masked_less(x, 0).argmin()`: first index of the minimal
non-negative entry; numpy returns index 0 when the array is fully masked. -/
def maskedArgmin (l : List ℚ) : ℕ :=
  (argminNonneg l).elim 0 Prod.fst

/-- Element-wise effectful map over a list that stops at the first raised
error, as a Python `for` loop that appends to an accumulator does. -/
def exceptMapM {α β : Type} (f : α → Except String β) : List α → Except String (List β)
  | [] => Except.ok []
  | x :: xs => do
    let y ← f x
    let ys ← exceptMapM f xs
    pure (y :: ys)

/-- Embedding of `times_to_burst_association`: if `burst_info is None`, burst 0
for every input time; otherwise `last_time` eagerly reads
`bursts_start_times[0]`, which raises `IndexError` when the start-times array
is empty (the burst-count-0 case); otherwise raise `CoordinatesOutOfBounds`
for a time before the first burst start or after the nominal end, and
otherwise take the masked argmin of the differences from the burst start
times. -/
def timesToBurstAssociation (bi : Option BurstInfo) (ri : RasterInfo)
    (azimuth_times : List ℚ) : Except String (List ℕ) :=
  match bi with
  | none => Except.ok (azimuth_times.map fun _ => 0)
  | some bi =>
    match bi.azimuth_start_times with
    | [] => Except.error "IndexError: index 0 is out of bounds for axis 0 with size 0"
    | s0 :: rest =>
      let last_time := s0 + (bi.num : ℚ) * (bi.lines_per_burst : ℚ) * ri.lines_step
      exceptMapM (fun time =>
        if time < s0 ∨ time > last_time then
          Except.error "CoordinatesOutOfBounds: time is out of the recorded timeline"
        else
          Except.ok (maskedArgmin ((s0 :: rest).map fun s => time - s)))
        azimuth_times

/-- Embedding of `pixel_to_burst_association`: if `burst_info is None`, burst 0
for every pixel; otherwise boundaries are `[0] + cumulative sums` of the
per-burst line counts (`np.repeat(lines_per_burst, num)`), raising when the
pixel exceeds the last boundary, and otherwise taking the masked argmin of the
differences from the boundaries. -/
def pixelToBurstAssociation (bi : Option BurstInfo)
    (azimuth_px_indexes : List ℚ) : Except String (List ℕ) :=
  match bi with
  | none => Except.ok (azimuth_px_indexes.map fun _ => 0)
  | some bi =>
    let bursts_lines : List ℕ := List.replicate bi.num bi.lines_per_burst
    let burst_boundaries : List ℚ :=
      (0 : ℚ) :: (List.range bursts_lines.length).map
        (fun t => (((bursts_lines.take (t + 1)).sum : ℕ) : ℚ))
    exceptMapM (fun coord =>
      if coord > burst_boundaries.getLastD 0 then
        Except.error "CoordinatesOutOfBounds: pixel exceeds swath bounds"
      else
        Except.ok (maskedArgmin (burst_boundaries.map fun b => coord - b)))
      azimuth_px_indexes

/-- Embedding of `pixel_to_times_conversion`: burst-local affine map for the
azimuth time when bursts exist and a burst is given, global affine map
otherwise; the range time is affine in the range index and, for ground-range
projection, converted through `evaluate_ground_to_slant` at the mid azimuth
time. -/
def pixel_to_times_conversion (ch : ChannelGeometry) (azimuth_index range_index : ℚ)
    (burst : Option ℕ) : ℚ × ℚ :=
  let start_time_rng := ch.raster_info.samples_start
  let az_time :=
    match burst with
    | some b =>
      if 0 < ch.burst_info.num then
        (azimuth_index - (ch.burst_info.lines_per_burst : ℚ) * (b : ℚ)) * ch.raster_info.lines_step
          + ch.burst_info.azimuth_start_times.getD b 0
      else
        azimuth_index * ch.raster_info.lines_step + ch.raster_info.lines_start
    | none => azimuth_index * ch.raster_info.lines_step + ch.raster_info.lines_start
  let rng_time := range_index * ch.raster_info.samples_step + start_time_rng
  let rng_time :=
    if ch.projection = SARProjection.ground_range then
      ch.coordinate_conversions.evaluate_ground_to_slant (midAzimuthTime ch) rng_time
    else rng_time
  (az_time, rng_time)

/-- Embedding of `times_to_pixel_conversion`: for ground-range projection the
range value is first converted through `evaluate_slant_to_ground` at the given
azimuth time; when bursts exist and no burst is given it is resolved through
`times_to_burst_association` (which can raise). -/
def times_to_pixel_conversion (ch : ChannelGeometry) (azimuth_time range_time : ℚ)
    (burst : Option ℕ) : Except String (ℚ × ℚ) :=
  let rng_value :=
    if ch.projection = SARProjection.ground_range then
      ch.coordinate_conversions.evaluate_slant_to_ground azimuth_time range_time
    else range_time
  let rng_idx := (rng_value - ch.raster_info.samples_start) / ch.raster_info.samples_step
  if 0 < ch.burst_info.num then
    match burst with
    | some b =>
      Except.ok ((azimuth_time - ch.burst_info.azimuth_start_times.getD b 0) / ch.raster_info.lines_step
        + (ch.burst_info.lines_per_burst : ℚ) * (b : ℚ), rng_idx)
    | none =>
      match timesToBurstAssociation (some ch.burst_info) ch.raster_info [azimuth_time] with
      | Except.error e => Except.error e
      | Except.ok bs =>
        let b := bs.getD 0 0
        Except.ok ((azimuth_time - ch.burst_info.azimuth_start_times.getD b 0) / ch.raster_info.lines_step
          + (ch.burst_info.lines_per_burst : ℚ) * (b : ℚ), rng_idx)
  else
    Except.ok ((azimuth_time - ch.raster_info.lines_start) / ch.raster_info.lines_step, rng_idx)

/-- Per-point rectangle test of `ground_points_to_burst_association`: a failed
inverse geocoding yields the single-entry `[False]` check; otherwise one strict
interior test per burst rectangle (azimuth and range boundary pairs zipped). -/
def burstRectCheck (burst_az_boundaries burst_rng_boundaries : List (ℚ × ℚ))
    (geocoded : Except String (ℚ × ℚ)) : List Bool :=
  match geocoded with
  | Except.error _ => [false]
  | Except.ok (t_az, t_rng) =>
    List.zipWith (fun az rng =>
        (decide (t_az < az.2) && decide (t_az > az.1))
          && (decide (t_rng < rng.2) && decide (t_rng > rng.1)))
      burst_az_boundaries burst_rng_boundaries

/-- Embedding of `ground_points_to_burst_association`: each point is inverse
geocoded inside a `try`/`except` (the `geocode` collaborator returns `Except`);
a failure marks the point unassociated, a success is tested against every burst
rectangle and yields the list of all matching burst indices (`np.where`), or
`None` when no rectangle matches. -/
def groundPointsToBurstAssociation {P : Type} (geocode : P → Except String (ℚ × ℚ))
    (burst_az_boundaries burst_rng_boundaries : List (ℚ × ℚ))
    (coordinates : List P) : List (Option (List ℕ)) :=
  coordinates.map fun coord =>
    let check := burstRectCheck burst_az_boundaries burst_rng_boundaries (geocode coord)
    let matching := check.enum.filterMap fun p => if p.2 then some p.1 else none
    if matching.isEmpty then none else some matching

/-- Boundary errors of `read_data` (`AzimuthExceedsBoundariesError` and
`RangeExceedsBoundariesError`), carrying the offending value. -/
inductive ReadBoundaryError where
  | azimuthExceedsBoundaries (value : ℚ)
  | rangeExceedsBoundaries (value : ℚ)
deriving DecidableEq

/-- Transpose of a rectangular matrix stored as rows (`np.ndarray.T`). -/
def transposeLL (data : List (List ℚ)) : List (List ℚ) :=
  (List.range (data.headD []).length).map fun j => data.map fun row => row.getD j 0

/-- The target block `[start line, start sample, number of lines, number of
samples]` built by `read_data`; `cropping_size` is `(samples, lines) = (W, H)`
and the centering uses `np.floor(size / 2)`. -/
def iceye_target_block (azimuth_index range_index : ℚ) (cropping_size : ℕ × ℕ) :
    ℚ × ℚ × ℕ × ℕ :=
  (azimuth_index - (cropping_size.2 / 2 : ℕ), range_index - (cropping_size.1 / 2 : ℕ),
    cropping_size.2, cropping_size.1)

/-- Embedding of `ICEYEChannelManager.read_data`.  `read_channel` stands for
`read_channel_data` already applied to the raster file and the channel
calibration factor (the calibration-scaled raw read); `radiometric_correction`
stands for the incidence-angle computation plus the external
`radiometric_correction` call, given the target block and the window. -/
def iceye_read_data (lines samples : ℕ)
    (read_channel : ℚ × ℚ × ℕ × ℕ → List (List ℚ))
    (native output : SARRadiometricQuantity)
    (radiometric_correction : ℚ × ℚ × ℕ × ℕ → List (List ℚ) → List (List ℚ))
    (azimuth_index range_index : ℚ) (cropping_size : ℕ × ℕ) :
    Except ReadBoundaryError (List (List ℚ)) :=
  let tb := iceye_target_block azimuth_index range_index cropping_size
  if tb.1 > (lines : ℚ) ∨ tb.1 < 0 then
    Except.error (ReadBoundaryError.azimuthExceedsBoundaries tb.1)
  else if tb.2.1 > (samples : ℚ) ∨ tb.2.1 < 0 then
    Except.error (ReadBoundaryError.rangeExceedsBoundaries tb.2.1)
  else if tb.1 + (tb.2.2.1 : ℚ) > (lines : ℚ) then
    Except.error (ReadBoundaryError.azimuthExceedsBoundaries (tb.1 + (tb.2.2.1 : ℚ)))
  else if tb.2.1 + (tb.2.2.2 : ℚ) > (samples : ℚ) then
    Except.error (ReadBoundaryError.rangeExceedsBoundaries (tb.2.1 + (tb.2.2.2 : ℚ)))
  else
    let data := transposeLL (read_channel tb)
    if native ≠ output then Except.ok (radiometric_correction tb data)
    else Except.ok data

/-- Embedding of `ASARChannelManager.read_data`.  Identical to the ICEYE one
except that the range index is first mirrored (`samples - range_index`, the
binary being written in the opposite direction along range) and that a `burst`
parameter is accepted; the Python body never uses `burst`.  The final
real-data `astype(float64)` is value preserving in this exact-rational model. -/
def asar_read_data (lines samples : ℕ)
    (read_channel : ℚ × ℚ × ℕ × ℕ → List (List ℚ))
    (native output : SARRadiometricQuantity)
    (radiometric_correction : ℚ × ℚ × ℕ × ℕ → List (List ℚ) → List (List ℚ))
    (azimuth_index range_index : ℚ) (cropping_size : ℕ × ℕ) (burst : Option ℕ) :
    Except ReadBoundaryError (List (List ℚ)) :=
  let range_index := (samples : ℚ) - range_index
  let tb := iceye_target_block azimuth_index range_index cropping_size
  if tb.1 > (lines : ℚ) ∨ tb.1 < 0 then
    Except.error (ReadBoundaryError.azimuthExceedsBoundaries tb.1)
  else if tb.2.1 > (samples : ℚ) ∨ tb.2.1 < 0 then
    Except.error (ReadBoundaryError.rangeExceedsBoundaries tb.2.1)
  else if tb.1 + (tb.2.2.1 : ℚ) > (lines : ℚ) then
    Except.error (ReadBoundaryError.azimuthExceedsBoundaries (tb.1 + (tb.2.2.1 : ℚ)))
  else if tb.2.1 + (tb.2.2.2 : ℚ) > (samples : ℚ) then
    Except.error (ReadBoundaryError.rangeExceedsBoundaries (tb.2.1 + (tb.2.2.2 : ℚ)))
  else
    let data := transposeLL (read_channel tb)
    if native ≠ output then Except.ok (radiometric_correction tb data)
    else Except.ok data

/-- The first boundary condition of `read_data`: start line above the line
count or below zero. -/
def azStartOut (lines : ℕ) (s_az : ℚ) : Prop :=
  s_az > (lines : ℚ) ∨ s_az < 0

/-- The second boundary condition of `read_data`: start sample above the
sample count or below zero. -/
def rngStartOut (samples : ℕ) (s_rng : ℚ) : Prop :=
  s_rng > (samples : ℚ) ∨ s_rng < 0

/-- The third boundary condition of `read_data`: last line exceeds the line
count. -/
def azEndOut (lines : ℕ) (s_az : ℚ) (h : ℕ) : Prop :=
  s_az + (h : ℚ) > (lines : ℚ)

/-- The fourth boundary condition of `read_data`: last sample exceeds the
sample count. -/
def rngEndOut (samples : ℕ) (s_rng : ℚ) (w : ℕ) : Prop :=
  s_rng + (w : ℚ) > (samples : ℚ)

/-- Strict interior test of burst rectangle `j` performed by
`ground_points_to_burst_association` on a geocoded time pair. -/
def insideBurstRect (burst_az_boundaries burst_rng_boundaries : List (ℚ × ℚ))
    (j : ℕ) (t_az t_rng : ℚ) : Prop :=
  t_az < (burst_az_boundaries.getD j (0, 0)).2 ∧
    t_az > (burst_az_boundaries.getD j (0, 0)).1 ∧
    t_rng < (burst_rng_boundaries.getD j (0, 0)).2 ∧
    t_rng > (burst_rng_boundaries.getD j (0, 0)).1

/-- The raster of the spec's concrete scenarios: 1000 lines, 50 samples,
`lines_step = samples_step = 0.1`, `samples_start = 0.5`, azimuth epoch T0
modeled as 0. -/
def scenarioRaster : RasterInfo :=
  { lines := 1000, samples := 50, lines_start := 0, lines_step := 1/10,
    samples_start := 1/2, samples_step := 1/10 }

/-- The single burst of the spec's concrete scenarios: `num_bursts = 1`,
`lines_per_burst = 1000`, burst start at T0. -/
def scenarioBurst : BurstInfo :=
  { num := 1, lines_per_burst := 1000, azimuth_start_times := [0] }

/-- Conversion surfaces that ignore the azimuth time and convert by the
identity map (slant-range channels never evaluate them). -/
def identitySurfaces : CoordinateConversions :=
  { evaluate_ground_to_slant := fun _ v => v
    evaluate_slant_to_ground := fun _ v => v }

/-- Slant-range channel of the spec's concrete scenarios. -/
def scenarioChannel : ChannelGeometry :=
  { raster_info := scenarioRaster
    burst_info := scenarioBurst
    projection := SARProjection.slant_range
    coordinate_conversions := identitySurfaces }

/-- Ground-range channel whose conversion surface pair depends on the azimuth
time: ground-to-slant adds the azimuth time, slant-to-ground subtracts it, so
the two surfaces are exact (and monotone) inverses of each other at every
fixed azimuth time.  Its azimuth axis is `[0, 1, 2]`, so the mid azimuth time
is 1. -/
def groundRangeChannel : ChannelGeometry where
  raster_info :=
    { lines := 3, samples := 1, lines_start := 0, lines_step := 1,
      samples_start := 0, samples_step := 1 }
  burst_info := { num := 1, lines_per_burst := 3, azimuth_start_times := [0] }
  projection := SARProjection.ground_range
  coordinate_conversions :=
    { evaluate_ground_to_slant := fun t v => v + t
      evaluate_slant_to_ground := fun t v => v - t }

/-- Burst layout with two bursts of 500 lines each, for burst-boundary
crossing scenarios on a 1000-line raster. -/
def twoBurstInfo : BurstInfo :=
  { num := 2, lines_per_burst := 500, azimuth_start_times := [0, 50] }

/-- A list entry read through `getD` at an in-range index is a member. -/
theorem getD_mem_of_lt (l : List ℚ) (i : ℕ) (h : i < l.length) : l.getD i 0 ∈ l := by
  rw [List.getD_eq_getElem l 0 h]
  exact List.getElem_mem h

/-- The masked argmin scan returns `none` exactly when every entry is
negative (fully masked array). -/
theorem argminNonneg_eq_none_iff (l : List ℚ) :
    argminNonneg l = none ↔ ∀ x ∈ l, x < 0 := by
  induction l with
  | nil => simp [argminNonneg]
  | cons x xs ih =>
    simp only [argminNonneg]
    cases h : argminNonneg xs with
    | none =>
      by_cases hx : 0 ≤ x
      · simp [hx, List.forall_mem_cons, not_lt.mpr hx]
      · rw [if_neg hx]
        exact iff_of_true rfl (List.forall_mem_cons.mpr ⟨not_le.mp hx, ih.mp h⟩)
    | some jm =>
      obtain ⟨j, m⟩ := jm
      have hxs : ¬ ∀ y ∈ xs, y < 0 := fun hall => by
        rw [ih.mpr hall] at h
        exact Option.noConfusion h
      constructor
      · intro hnone
        exfalso
        by_cases hx : 0 ≤ x
        · by_cases hxm : x ≤ m <;> simp [hx, hxm] at hnone
        · simp [hx] at hnone
      · intro hall
        exact absurd (fun y hy => hall y (List.mem_cons_of_mem x hy)) hxs

/-- Specification of the masked argmin scan when it finds a non-negative
entry: the returned index is in range and holds the returned value, which is
non-negative, minimal among all non-negative entries, and strictly smaller
than every non-negative entry at an earlier index. -/
theorem argminNonneg_spec :
    ∀ (l : List ℚ) (j : ℕ) (m : ℚ), argminNonneg l = some (j, m) →
      j < l.length ∧ l.getD j 0 = m ∧ 0 ≤ m ∧
        (∀ i, i < l.length → 0 ≤ l.getD i 0 → m ≤ l.getD i 0) ∧
        (∀ i, i < j → 0 ≤ l.getD i 0 → m < l.getD i 0) := by
  intro l
  induction l with
  | nil => intro j m h; simp [argminNonneg] at h
  | cons x xs ih =>
    intro j m h
    simp only [argminNonneg] at h
    cases hxs : argminNonneg xs with
    | none =>
      rw [hxs] at h
      have hall : ∀ y ∈ xs, y < 0 := (argminNonneg_eq_none_iff xs).mp hxs
      by_cases hx : 0 ≤ x
      · simp only [hx, if_true, Option.some.injEq, Prod.mk.injEq] at h
        obtain ⟨hj, hm⟩ := h
        subst hj; subst hm
        refine ⟨by simp, by simp, hx, ?_, ?_⟩
        · intro i hi hnn
          cases i with
          | zero => simp
          | succ i =>
            exfalso
            rw [List.getD_cons_succ] at hnn
            have hilen : i < xs.length := by simpa using hi
            exact absurd hnn (not_le.mpr (hall _ (getD_mem_of_lt xs i hilen)))
        · intro i hi; omega
      · simp [hx] at h
    | some jm =>
      obtain ⟨j', m'⟩ := jm
      rw [hxs] at h
      obtain ⟨ih1, ih2, ih3, ih4, ih5⟩ := ih j' m' hxs
      by_cases hx : 0 ≤ x
      · by_cases hxm : x ≤ m'
        · simp only [hx, hxm, if_true, Option.some.injEq, Prod.mk.injEq] at h
          obtain ⟨hj, hm⟩ := h
          subst hj; subst hm
          refine ⟨by simp, by simp, hx, ?_, ?_⟩
          · intro i hi hnn
            cases i with
            | zero => simp
            | succ i =>
              rw [List.getD_cons_succ] at hnn ⊢
              exact le_trans hxm (ih4 i (by simpa using hi) hnn)
          · intro i hi; omega
        · simp only [hx, hxm, if_true, if_false, Option.some.injEq, Prod.mk.injEq] at h
          obtain ⟨hj, hm⟩ := h
          subst hj; subst hm
          refine ⟨by simpa using ih1, by simpa using ih2, ih3, ?_, ?_⟩
          · intro i hi hnn
            cases i with
            | zero =>
              rw [List.getD_cons_zero] at hnn ⊢
              exact le_of_lt (not_le.mp hxm)
            | succ i =>
              rw [List.getD_cons_succ] at hnn ⊢
              exact ih4 i (by simpa using hi) hnn
          · intro i hi hnn
            cases i with
            | zero =>
              rw [List.getD_cons_zero] at hnn ⊢
              exact not_le.mp hxm
            | succ i =>
              rw [List.getD_cons_succ] at hnn ⊢
              exact ih5 i (by omega) hnn
      · simp only [hx, if_false, Option.some.injEq, Prod.mk.injEq] at h
        obtain ⟨hj, hm⟩ := h
        subst hj; subst hm
        refine ⟨by simpa using ih1, by simpa using ih2, ih3, ?_, ?_⟩
        · intro i hi hnn
          cases i with
          | zero =>
            rw [List.getD_cons_zero] at hnn
            exact absurd hnn hx
          | succ i =>
            rw [List.getD_cons_succ] at hnn ⊢
            exact ih4 i (by simpa using hi) hnn
        · intro i hi hnn
          cases i with
          | zero =>
            rw [List.getD_cons_zero] at hnn
            exact absurd hnn hx
          | succ i =>
            rw [List.getD_cons_succ] at hnn ⊢
            exact ih5 i (by omega) hnn

/-- The masked argmin scan finds some entry whenever one non-negative entry
exists. -/
theorem argminNonneg_isSome (l : List ℚ) (i : ℕ) (hi : i < l.length)
    (hnn : 0 ≤ l.getD i 0) : ∃ j m, argminNonneg l = some (j, m) := by
  cases h : argminNonneg l with
  | none =>
    exact absurd hnn
      (not_le.mpr ((argminNonneg_eq_none_iff l).mp h _ (getD_mem_of_lt l i hi)))
  | some jm =>
    obtain ⟨j, m⟩ := jm
    exact ⟨j, m, rfl⟩

/-- A fully masked argmin (`np.ma.argmin` on an all-masked array) returns 0. -/
theorem maskedArgmin_eq_zero_of_all_neg (l : List ℚ) (h : ∀ x ∈ l, x < 0) :
    maskedArgmin l = 0 := by
  unfold maskedArgmin
  rw [(argminNonneg_eq_none_iff l).mpr h]
  rfl

/-- Characterization of `maskedArgmin` when at least one entry is
non-negative: the result indexes a minimal non-negative entry and is the
first index achieving that minimum. -/
theorem maskedArgmin_spec (l : List ℚ) (i : ℕ) (hi : i < l.length)
    (hnn : 0 ≤ l.getD i 0) :
    maskedArgmin l < l.length ∧ 0 ≤ l.getD (maskedArgmin l) 0 ∧
      (∀ k, k < l.length → 0 ≤ l.getD k 0 → l.getD (maskedArgmin l) 0 ≤ l.getD k 0) ∧
      (∀ k, k < maskedArgmin l → 0 ≤ l.getD k 0 → l.getD (maskedArgmin l) 0 < l.getD k 0) := by
  obtain ⟨j, m, hjm⟩ := argminNonneg_isSome l i hi hnn
  obtain ⟨h1, h2, h3, h4, h5⟩ := argminNonneg_spec l j m hjm
  have hma : maskedArgmin l = j := by simp [maskedArgmin, hjm]
  rw [hma, h2]
  exact ⟨h1, h3, h4, h5⟩

/-- `exceptMapM` over a single element is the mapped effect of that element. -/
theorem exceptMapM_singleton {α β : Type} (f : α → Except String β) (x : α) :
    exceptMapM f [x] = (f x).map (fun y => [y]) := by
  cases h : f x with
  | error e => simp [exceptMapM, h, Except.map, Bind.bind, Except.bind]
  | ok y => simp [exceptMapM, h, Except.map, Bind.bind, Except.bind, Pure.pure, Except.pure]

/-- Reading a mapped difference list through `getD` at an in-range index. -/
theorem getD_map_sub (starts : List ℚ) (t : ℚ) (i : ℕ) (hi : i < starts.length) :
    (starts.map (fun s => t - s)).getD i 0 = t - starts.getD i 0 := by
  rw [List.getD_eq_getElem _ _ (by simpa using hi), List.getD_eq_getElem _ _ hi]
  simp

/-- Reading the flattening of equal-length chunks at a block-local index
returns the corresponding element of the selected chunk. -/
theorem flatten_getD_uniform (L : ℕ) (d : ℚ) :
    ∀ (ls : List (List ℚ)) (b k : ℕ), (∀ x ∈ ls, x.length = L) → b < ls.length → k < L →
      ls.flatten.getD (b * L + k) d = (ls.getD b []).getD k d := by
  intro ls
  induction ls with
  | nil =>
    intro b k _ hb _
    simp at hb
  | cons x xs ih =>
    intro b k hall hb hk
    have hx : x.length = L := hall x (List.mem_cons_self x xs)
    cases b with
    | zero =>
      rw [List.flatten_cons, Nat.zero_mul, Nat.zero_add, List.getD_cons_zero]
      exact List.getD_append x xs.flatten d k (by rw [hx]; exact hk)
    | succ b =>
      rw [List.flatten_cons, List.getD_cons_succ]
      have hlen : x.length ≤ (b + 1) * L + k := by
        rw [hx, Nat.succ_mul]
        omega
      rw [List.getD_append_right x xs.flatten d _ hlen]
      have harith : (b + 1) * L + k - x.length = b * L + k := by
        rw [hx, Nat.succ_mul]
        generalize b * L = BL
        omega
      rw [harith]
      exact ih b k (fun y hy => hall y (List.mem_cons_of_mem x hy)) (by simpa using hb) hk

/-- The flattening of equal-length chunks has length chunk count times chunk
length. -/
theorem flatten_length_uniform (L : ℕ) :
    ∀ (ls : List (List ℚ)), (∀ x ∈ ls, x.length = L) →
      ls.flatten.length = ls.length * L := by
  intro ls
  induction ls with
  | nil => intro; simp
  | cons x xs ih =>
    intro hall
    rw [List.flatten_cons, List.length_append, hall x (List.mem_cons_self x xs),
      ih (fun y hy => hall y (List.mem_cons_of_mem x hy)), List.length_cons, Nat.succ_mul]
    omega

/-- The cumulative burst boundaries built by `pixel_to_burst_association` are
exactly the multiples of `lines_per_burst` from 0 to `num`. -/
theorem pixel_burst_boundaries_eq (num lpb : ℕ) :
    ((0 : ℚ) :: (List.range (List.replicate num lpb).length).map
        (fun t => (((List.replicate num lpb).take (t + 1)).sum : ℚ)))
      = (List.range (num + 1)).map (fun k => ((k * lpb : ℕ) : ℚ)) := by
  rw [List.length_replicate, List.range_succ_eq_map, List.map_cons, List.map_map]
  congr 1
  · simp
  · apply List.map_congr_left
    intro t ht
    have hmin : min (t + 1) num = t + 1 := by
      have := List.mem_range.mp ht
      omega
    simp [List.take_replicate, hmin, Function.comp, Nat.succ_mul, Nat.succ_eq_add_one,
      add_mul, one_mul, smul_eq_mul]

/-- Membership in the `np.where` index extraction: an index is produced
exactly when the boolean list holds `true` at that index. -/
theorem mem_enum_filterMap_true (bs : List Bool) (j : ℕ) :
    (j ∈ bs.enum.filterMap fun p => if p.2 then some p.1 else none) ↔
      bs[j]? = some true := by
  rw [List.mem_filterMap]
  constructor
  · rintro ⟨⟨i, b⟩, hmem, hf⟩
    cases b with
    | false => simp at hf
    | true =>
      simp only [if_true] at hf
      obtain rfl : i = j := by simpa using hf
      exact List.mk_mem_enum_iff_getElem?.mp hmem
  · intro h
    exact ⟨(j, true), List.mk_mem_enum_iff_getElem?.mpr h, by simp⟩

/-- The last cumulative burst boundary is `num * lines_per_burst`. -/
theorem burst_boundaries_getLastD (num lpb : ℕ) :
    ((List.range (num + 1)).map fun k => ((k * lpb : ℕ) : ℚ)).getLastD 0
      = ((num * lpb : ℕ) : ℚ) := by
  rw [List.range_succ, List.map_append]
  simp

/-- C7: the claimed behavior is implemented only behind the `burst_info is
None` guard, which no constructed channel reaches (both constructors
dereference `burst_info.num` unconditionally): with the field absent the
association does return burst 0 for every entry and never raises, but a
channel without burst structure as the constructors actually build it — a
`burst_info` object with `num = 0` and an empty start-times array — bypasses
the guard, and the eager `bursts_start_times[0]` access raises for every list
of azimuth times instead of returning burst 0. -/
theorem c7_no_burst_structure_burst_zero :
    (∀ (ri : RasterInfo) (azimuth_times : List ℚ),
      timesToBurstAssociation none ri azimuth_times
        = Except.ok (azimuth_times.map fun _ => 0)) ∧
    (∀ (ri : RasterInfo) (lines_per_burst : ℕ) (azimuth_times : List ℚ),
      ∃ e, timesToBurstAssociation
          (some { num := 0, lines_per_burst := lines_per_burst,
                  azimuth_start_times := [] }) ri azimuth_times
        = Except.error e) :=
  ⟨fun _ _ => rfl, fun _ _ _ => ⟨_, rfl⟩⟩

/-- C9: the azimuth axis is `lines_start + k * lines_step` for
`k = 0 .. lines - 1` when the burst count is 0, and the concatenation, in
burst order, of `lines_per_burst` times starting at each burst's own azimuth
start time with step `lines_step` (total length `num * lines_per_burst`)
when the burst count is positive. -/
theorem c9_azimuth_axis_construction (ri : RasterInfo) (bi : BurstInfo) :
    (bi.num = 0 →
      (computeAzimuthAxis ri bi).length = ri.lines ∧
      ∀ k, k < ri.lines →
        (computeAzimuthAxis ri bi).getD k 0
          = ri.lines_start + (k : ℚ) * ri.lines_step) ∧
    (0 < bi.num →
      (computeAzimuthAxis ri bi).length = bi.num * bi.lines_per_burst ∧
      ∀ b k, b < bi.num → k < bi.lines_per_burst →
        (computeAzimuthAxis ri bi).getD (b * bi.lines_per_burst + k) 0
          = bi.azimuth_start_times.getD b 0 + (k : ℚ) * ri.lines_step) := by
  constructor
  · intro h0
    have hcond : ¬ 0 < bi.num := by omega
    have hax : computeAzimuthAxis ri bi
        = (List.range ri.lines).map fun (k : ℕ) => (k : ℚ) * ri.lines_step + ri.lines_start := by
      unfold computeAzimuthAxis
      rw [if_neg hcond]
    constructor
    · rw [hax, List.length_map, List.length_range]
    · intro k hk
      rw [hax, List.getD_eq_getElem _ _ (by rw [List.length_map, List.length_range]; exact hk)]
      simp only [List.getElem_map, List.getElem_range]
      ring
  · intro hpos
    have huni : ∀ x ∈ (List.range bi.num).map (fun (brst : ℕ) =>
        (List.range bi.lines_per_burst).map fun (k : ℕ) =>
          bi.azimuth_start_times.getD brst 0 + (k : ℚ) * ri.lines_step),
        x.length = bi.lines_per_burst := by
      intro x hx
      obtain ⟨brst, _, rfl⟩ := List.mem_map.mp hx
      rw [List.length_map, List.length_range]
    have hax : computeAzimuthAxis ri bi
        = ((List.range bi.num).map fun (brst : ℕ) =>
            (List.range bi.lines_per_burst).map fun (k : ℕ) =>
              bi.azimuth_start_times.getD brst 0 + (k : ℚ) * ri.lines_step).flatten := by
      unfold computeAzimuthAxis
      rw [if_pos hpos]
    constructor
    · rw [hax, flatten_length_uniform bi.lines_per_burst _ huni, List.length_map,
        List.length_range]
    · intro b k hb hk
      have houter : ((List.range bi.num).map (fun (brst : ℕ) =>
          (List.range bi.lines_per_burst).map fun (k : ℕ) =>
            bi.azimuth_start_times.getD brst 0 + (k : ℚ) * ri.lines_step)).getD b []
          = (List.range bi.lines_per_burst).map fun (k : ℕ) =>
              bi.azimuth_start_times.getD b 0 + (k : ℚ) * ri.lines_step := by
        rw [List.getD_eq_getElem _ _ (by rw [List.length_map, List.length_range]; exact hb)]
        simp only [List.getElem_map, List.getElem_range]
      rw [hax, flatten_getD_uniform bi.lines_per_burst 0 _ b k huni
          (by rw [List.length_map, List.length_range]; exact hb) hk, houter,
        List.getD_eq_getElem _ _ (by rw [List.length_map, List.length_range]; exact hk)]
      simp only [List.getElem_map, List.getElem_range]

/-- C9 witness: on a concrete two-burst layout the axis has length
`num * lines_per_burst`. -/
theorem c9_azimuth_axis_construction_witness :
    0 < twoBurstInfo.num ∧
    (computeAzimuthAxis scenarioRaster twoBurstInfo).length
      = twoBurstInfo.num * twoBurstInfo.lines_per_burst :=
  ⟨by decide,
    ((c9_azimuth_axis_construction scenarioRaster twoBurstInfo).2 (by decide)).1⟩

/-- C10: for a channel with at least one burst, a negative azimuth pixel index
does not raise: only the upper cumulative boundary is checked, every
difference is negative, the masked argmin is fully masked, and burst index 0
is returned. -/
theorem c10_negative_pixel_burst_zero (bi : BurstInfo) (p : ℚ)
    (hnum : 0 < bi.num) (hneg : p < 0) :
    pixelToBurstAssociation (some bi) [p] = Except.ok [0] := by
  have hbound := pixel_burst_boundaries_eq bi.num bi.lines_per_burst
  simp only [pixelToBurstAssociation]
  rw [hbound, exceptMapM_singleton]
  have hif : ¬ p > ((List.range (bi.num + 1)).map
      fun k => ((k * bi.lines_per_burst : ℕ) : ℚ)).getLastD 0 := by
    rw [burst_boundaries_getLastD]
    exact not_lt.mpr (le_trans (le_of_lt hneg) (Nat.cast_nonneg _))
  have hallneg : ∀ x ∈ ((List.range (bi.num + 1)).map
      fun k => ((k * bi.lines_per_burst : ℕ) : ℚ)).map fun b => p - b, x < 0 := by
    intro x hx
    obtain ⟨bv, hbv, rfl⟩ := List.mem_map.mp hx
    obtain ⟨k, _, rfl⟩ := List.mem_map.mp hbv
    have hnn : (0 : ℚ) ≤ ((k * bi.lines_per_burst : ℕ) : ℚ) := Nat.cast_nonneg _
    linarith
  rw [if_neg hif, maskedArgmin_eq_zero_of_all_neg _ hallneg]
  rfl

/-- C10 witness: a concrete negative pixel on the two-burst layout resolves to
burst 0 without raising. -/
theorem c10_negative_pixel_burst_zero_witness :
    0 < twoBurstInfo.num ∧ (-3 : ℚ) < 0 ∧
    pixelToBurstAssociation (some twoBurstInfo) [(-3 : ℚ)] = Except.ok [0] :=
  ⟨by decide, by norm_num,
    c10_negative_pixel_burst_zero twoBurstInfo (-3) (by decide) (by norm_num)⟩

/-- C3: for a channel with at least one burst, `times_to_burst_association`
on a single azimuth time raises `CoordinatesOutOfBounds` exactly when the
time is before the first burst start or after
`burst_start[0] + num_bursts * lines_per_burst * lines_step`, and otherwise
returns the index of the first burst whose start time is at most the given
time and closest to it (minimal non-negative difference, earlier index on
ties). -/
theorem c3_times_to_burst_resolution (bi : BurstInfo) (ri : RasterInfo) (t : ℚ)
    (hnum : 0 < bi.num) (hwf : bi.azimuth_start_times.length = bi.num) :
    ((∃ e, timesToBurstAssociation (some bi) ri [t] = Except.error e) ↔
      (t < bi.azimuth_start_times.getD 0 0 ∨
        t > bi.azimuth_start_times.getD 0 0
          + (bi.num : ℚ) * (bi.lines_per_burst : ℚ) * ri.lines_step)) ∧
    (¬(t < bi.azimuth_start_times.getD 0 0 ∨
        t > bi.azimuth_start_times.getD 0 0
          + (bi.num : ℚ) * (bi.lines_per_burst : ℚ) * ri.lines_step) →
      ∃ j, timesToBurstAssociation (some bi) ri [t] = Except.ok [j] ∧
        j < bi.num ∧ bi.azimuth_start_times.getD j 0 ≤ t ∧
        (∀ i, i < bi.num → bi.azimuth_start_times.getD i 0 ≤ t →
          t - bi.azimuth_start_times.getD j 0 ≤ t - bi.azimuth_start_times.getD i 0) ∧
        (∀ i, i < j → bi.azimuth_start_times.getD i 0 ≤ t →
          t - bi.azimuth_start_times.getD j 0 < t - bi.azimuth_start_times.getD i 0)) := by
  obtain ⟨s0, rest, hcons⟩ : ∃ s0 rest, bi.azimuth_start_times = s0 :: rest := by
    cases hl : bi.azimuth_start_times with
    | nil =>
      rw [hl] at hwf
      simp at hwf
      omega
    | cons a l => exact ⟨a, l, rfl⟩
  have hassoc : timesToBurstAssociation (some bi) ri [t]
      = (if t < bi.azimuth_start_times.getD 0 0 ∨
            t > bi.azimuth_start_times.getD 0 0
              + (bi.num : ℚ) * (bi.lines_per_burst : ℚ) * ri.lines_step then
          Except.error "CoordinatesOutOfBounds: time is out of the recorded timeline"
        else
          Except.ok (maskedArgmin (bi.azimuth_start_times.map fun s => t - s))).map
        (fun y => [y]) := by
    simp only [timesToBurstAssociation, hcons, List.getD_cons_zero]
    rw [exceptMapM_singleton]
  by_cases hc : t < bi.azimuth_start_times.getD 0 0 ∨
      t > bi.azimuth_start_times.getD 0 0
        + (bi.num : ℚ) * (bi.lines_per_burst : ℚ) * ri.lines_step
  · rw [hassoc, if_pos hc]
    exact ⟨iff_of_true ⟨_, rfl⟩ hc, fun hnc => absurd hc hnc⟩
  · rw [hassoc, if_neg hc]
    constructor
    · constructor
      · rintro ⟨e, he⟩
        exact absurd he (by simp [Except.map])
      · intro h
        exact absurd h hc
    · intro _
      have hge : bi.azimuth_start_times.getD 0 0 ≤ t := by
        rcases not_or.mp hc with ⟨h1, _⟩
        exact not_lt.mp h1
      set dl := bi.azimuth_start_times.map fun s => t - s with hdl
      have hlen : dl.length = bi.azimuth_start_times.length := by
        rw [hdl, List.length_map]
      have hlen0 : 0 < dl.length := by
        rw [hlen, hwf]
        exact hnum
      have hd0 : 0 ≤ dl.getD 0 0 := by
        rw [hdl, getD_map_sub _ _ 0 (by rw [hwf]; exact hnum)]
        linarith
      obtain ⟨hlt, hnn, hmin, hfirst⟩ := maskedArgmin_spec dl 0 hlen0 hd0
      have hjlt : maskedArgmin dl < bi.azimuth_start_times.length := by
        rw [← hlen]
        exact hlt
      have hjval : dl.getD (maskedArgmin dl) 0
          = t - bi.azimuth_start_times.getD (maskedArgmin dl) 0 := by
        rw [hdl]
        exact getD_map_sub _ _ _ hjlt
      refine ⟨maskedArgmin dl, by simp [Except.map], by rw [← hwf]; exact hjlt, ?_, ?_, ?_⟩
      · rw [hjval] at hnn
        linarith
      · intro i hi hile
        have hilen : i < bi.azimuth_start_times.length := by rw [hwf]; exact hi
        have hival : dl.getD i 0 = t - bi.azimuth_start_times.getD i 0 := by
          rw [hdl]
          exact getD_map_sub _ _ _ hilen
        have hres := hmin i (by rw [hlen]; exact hilen) (by rw [hival]; linarith)
        rw [hjval, hival] at hres
        exact hres
      · intro i hij hile
        have hilen : i < bi.azimuth_start_times.length := lt_trans hij hjlt
        have hival : dl.getD i 0 = t - bi.azimuth_start_times.getD i 0 := by
          rw [hdl]
          exact getD_map_sub _ _ _ hilen
        have hres := hfirst i hij (by rw [hival]; linarith)
        rw [hjval, hival] at hres
        exact hres

/-- C3 witness: on the spec's single-burst raster with burst start T0 = 0,
time T0 + 1.0 s resolves to burst 0 and time T0 - 1.0 s raises. -/
theorem c3_times_to_burst_resolution_witness :
    (0 < scenarioBurst.num ∧
      scenarioBurst.azimuth_start_times.length = scenarioBurst.num) ∧
    (∃ j, timesToBurstAssociation (some scenarioBurst) scenarioRaster [(1 : ℚ)]
        = Except.ok [j] ∧ j < scenarioBurst.num) ∧
    timesToBurstAssociation (some scenarioBurst) scenarioRaster [(1 : ℚ)]
      = Except.ok [0] ∧
    (∃ e, timesToBurstAssociation (some scenarioBurst) scenarioRaster [(-1 : ℚ)]
        = Except.error e) := by
  refine ⟨⟨by decide, by decide⟩, ?_, ?_, ?_⟩
  · obtain ⟨j, hj1, hj2, _⟩ :=
      (c3_times_to_burst_resolution scenarioBurst scenarioRaster 1
        (by decide) (by decide)).2 (by norm_num [scenarioBurst, scenarioRaster])
    exact ⟨j, hj1, hj2⟩
  · norm_num [timesToBurstAssociation, exceptMapM, scenarioBurst, scenarioRaster,
      maskedArgmin, argminNonneg, Bind.bind, Except.bind, Pure.pure, Except.pure]
  · exact (c3_times_to_burst_resolution scenarioBurst scenarioRaster (-1)
      (by decide) (by decide)).1.mpr (by norm_num [scenarioBurst, scenarioRaster])

/-- C8: for a channel with bursts, `pixel_to_burst_association` raises
`CoordinatesOutOfBounds` exactly when the pixel exceeds the last cumulative
boundary `num * lines_per_burst`, and otherwise resolves with the
masked-minimum first-match tie-break against the cumulative line-count
boundaries `0, lines_per_burst, 2 * lines_per_burst, ...`. -/
theorem c8_pixel_to_burst_resolution (bi : BurstInfo) (p : ℚ) (hnum : 0 < bi.num) :
    ((∃ e, pixelToBurstAssociation (some bi) [p] = Except.error e) ↔
      p > (bi.num : ℚ) * (bi.lines_per_burst : ℚ)) ∧
    (0 ≤ p → p ≤ (bi.num : ℚ) * (bi.lines_per_burst : ℚ) →
      ∃ j, pixelToBurstAssociation (some bi) [p] = Except.ok [j] ∧ j ≤ bi.num ∧
        (j : ℚ) * (bi.lines_per_burst : ℚ) ≤ p ∧
        (∀ k, k ≤ bi.num → (k : ℚ) * (bi.lines_per_burst : ℚ) ≤ p →
          p - (j : ℚ) * (bi.lines_per_burst : ℚ)
            ≤ p - (k : ℚ) * (bi.lines_per_burst : ℚ)) ∧
        (∀ k, k < j → (k : ℚ) * (bi.lines_per_burst : ℚ) ≤ p →
          p - (j : ℚ) * (bi.lines_per_burst : ℚ)
            < p - (k : ℚ) * (bi.lines_per_burst : ℚ))) := by
  have hcast : ((bi.num * bi.lines_per_burst : ℕ) : ℚ)
      = (bi.num : ℚ) * (bi.lines_per_burst : ℚ) := by
    push_cast
    ring
  have hassoc : pixelToBurstAssociation (some bi) [p]
      = (if p > ((bi.num * bi.lines_per_burst : ℕ) : ℚ) then
          Except.error "CoordinatesOutOfBounds: pixel exceeds swath bounds"
        else Except.ok (maskedArgmin (((List.range (bi.num + 1)).map
            fun k => ((k * bi.lines_per_burst : ℕ) : ℚ)).map fun b => p - b))).map
        (fun y => [y]) := by
    simp only [pixelToBurstAssociation]
    rw [pixel_burst_boundaries_eq, exceptMapM_singleton, burst_boundaries_getLastD]
  set B := (List.range (bi.num + 1)).map fun k => ((k * bi.lines_per_burst : ℕ) : ℚ) with hB
  have hBlen : B.length = bi.num + 1 := by
    rw [hB, List.length_map, List.length_range]
  have hBval : ∀ k, k < bi.num + 1 → B.getD k 0 = ((k * bi.lines_per_burst : ℕ) : ℚ) := by
    intro k hk
    rw [hB, List.getD_eq_getElem _ _ (by rw [List.length_map, List.length_range]; exact hk)]
    simp only [List.getElem_map, List.getElem_range]
  by_cases hc : p > (bi.num : ℚ) * (bi.lines_per_burst : ℚ)
  · rw [hassoc, if_pos (by rw [hcast]; exact hc)]
    constructor
    · exact iff_of_true ⟨_, rfl⟩ hc
    · intro _ hle
      exact absurd hc (not_lt.mpr hle)
  · rw [hassoc, if_neg (by rw [hcast]; exact hc)]
    constructor
    · constructor
      · rintro ⟨e, he⟩
        exact absurd he (by simp [Except.map])
      · intro h
        exact absurd h hc
    · intro hp0 hple
      set dl := B.map fun b => p - b with hdl
      have hdlen : dl.length = bi.num + 1 := by
        rw [hdl, List.length_map, hBlen]
      have hd0 : 0 ≤ dl.getD 0 0 := by
        rw [hdl, getD_map_sub _ _ 0 (by rw [hBlen]; omega), hBval 0 (by omega)]
        simpa using hp0
      obtain ⟨hlt, hnn, hmin, hfirst⟩ := maskedArgmin_spec dl 0 (by rw [hdlen]; omega) hd0
      set j := maskedArgmin dl with hj
      have hjB : j < B.length := by
        rw [hBlen]
        rw [hdlen] at hlt
        exact hlt
      have hjval : dl.getD j 0 = p - ((j * bi.lines_per_burst : ℕ) : ℚ) := by
        rw [hdl, getD_map_sub _ _ _ hjB, hBval j (by rw [← hBlen]; exact hjB)]
      have hjcast : ((j * bi.lines_per_burst : ℕ) : ℚ)
          = (j : ℚ) * (bi.lines_per_burst : ℚ) := by
        push_cast
        ring
      refine ⟨j, by simp [Except.map], by rw [hdlen] at hlt; omega, ?_, ?_, ?_⟩
      · rw [hjval, hjcast] at hnn
        linarith
      · intro k hk hkle
        have hkB : k < B.length := by
          rw [hBlen]
          omega
        have hkcast : ((k * bi.lines_per_burst : ℕ) : ℚ)
            = (k : ℚ) * (bi.lines_per_burst : ℚ) := by
          push_cast
          ring
        have hkval : dl.getD k 0 = p - ((k * bi.lines_per_burst : ℕ) : ℚ) := by
          rw [hdl, getD_map_sub _ _ _ hkB, hBval k (by omega)]
        have hres := hmin k (by rw [hdlen]; omega) (by rw [hkval, hkcast]; linarith)
        rw [hjval, hjcast, hkval, hkcast] at hres
        exact hres
      · intro k hk hkle
        have hkB : k < B.length := lt_trans hk hjB
        have hkBnum : k < bi.num + 1 := by
          rw [hBlen] at hkB
          exact hkB
        have hkcast : ((k * bi.lines_per_burst : ℕ) : ℚ)
            = (k : ℚ) * (bi.lines_per_burst : ℚ) := by
          push_cast
          ring
        have hkval : dl.getD k 0 = p - ((k * bi.lines_per_burst : ℕ) : ℚ) := by
          rw [hdl, getD_map_sub _ _ _ hkB, hBval k hkBnum]
        have hres := hfirst k hk (by rw [hkval, hkcast]; linarith)
        rw [hjval, hjcast, hkval, hkcast] at hres
        exact hres

/-- C8 witness: on the spec's single-burst raster with 1000 lines, pixel 5
resolves to burst 0 and pixel 5000 raises. -/
theorem c8_pixel_to_burst_resolution_witness :
    0 < scenarioBurst.num ∧
    pixelToBurstAssociation (some scenarioBurst) [(5 : ℚ)] = Except.ok [0] ∧
    (∃ e, pixelToBurstAssociation (some scenarioBurst) [(5000 : ℚ)]
        = Except.error e) ∧
    (∃ j, pixelToBurstAssociation (some scenarioBurst) [(5 : ℚ)]
        = Except.ok [j] ∧ j ≤ scenarioBurst.num) := by
  refine ⟨by decide, ?_, ?_, ?_⟩
  · norm_num [pixelToBurstAssociation, exceptMapM, scenarioBurst,
      maskedArgmin, argminNonneg, Bind.bind, Except.bind, Pure.pure, Except.pure]
  · exact (c8_pixel_to_burst_resolution scenarioBurst 5000 (by decide)).1.mpr
      (by norm_num [scenarioBurst])
  · obtain ⟨j, h1, h2, _⟩ :=
      (c8_pixel_to_burst_resolution scenarioBurst 5 (by decide)).2
        (by norm_num) (by norm_num [scenarioBurst])
    exact ⟨j, h1, h2⟩

/-- C4: batch ground-point association degrades gracefully and is exhaustive:
the output has one entry per input point; a point whose inverse geocoding
fails is marked `none` without aborting the batch; a successfully geocoded
point is associated with the list of all burst indices whose rectangles
strictly contain the geocoded time pair, and with `none` when no rectangle
matches. -/
theorem c4_ground_point_association {P : Type} (geocode : P → Except String (ℚ × ℚ))
    (burst_az_boundaries burst_rng_boundaries : List (ℚ × ℚ))
    (hlen : burst_az_boundaries.length = burst_rng_boundaries.length)
    (coordinates : List P) :
    (groundPointsToBurstAssociation geocode burst_az_boundaries burst_rng_boundaries
        coordinates).length = coordinates.length ∧
    (∀ i, ∀ hi : i < coordinates.length,
      (∀ e, geocode (coordinates.get ⟨i, hi⟩) = Except.error e →
        (groundPointsToBurstAssociation geocode burst_az_boundaries burst_rng_boundaries
            coordinates)[i]? = some none) ∧
      (∀ t_az t_rng, geocode (coordinates.get ⟨i, hi⟩) = Except.ok (t_az, t_rng) →
        ((∀ j, j < burst_az_boundaries.length →
            ¬ insideBurstRect burst_az_boundaries burst_rng_boundaries j t_az t_rng) →
          (groundPointsToBurstAssociation geocode burst_az_boundaries burst_rng_boundaries
              coordinates)[i]? = some none) ∧
        (∀ j0, j0 < burst_az_boundaries.length →
          insideBurstRect burst_az_boundaries burst_rng_boundaries j0 t_az t_rng →
          ∃ l, (groundPointsToBurstAssociation geocode burst_az_boundaries
              burst_rng_boundaries coordinates)[i]? = some (some l) ∧
            (∀ j, j ∈ l ↔ (j < burst_az_boundaries.length ∧
              insideBurstRect burst_az_boundaries burst_rng_boundaries j t_az t_rng))))) := by
  constructor
  · simp [groundPointsToBurstAssociation]
  · intro i hi
    have hentry : (groundPointsToBurstAssociation geocode burst_az_boundaries
        burst_rng_boundaries coordinates)[i]?
        = some (if ((burstRectCheck burst_az_boundaries burst_rng_boundaries
              (geocode (coordinates.get ⟨i, hi⟩))).enum.filterMap fun p =>
                if p.2 then some p.1 else none).isEmpty then none
            else some ((burstRectCheck burst_az_boundaries burst_rng_boundaries
              (geocode (coordinates.get ⟨i, hi⟩))).enum.filterMap fun p =>
                if p.2 then some p.1 else none)) := by
      simp only [groundPointsToBurstAssociation]
      rw [List.getElem?_map, List.getElem?_eq_getElem hi]
      rfl
    constructor
    · intro e he
      rw [hentry, he]
      simp [burstRectCheck, List.enum]
    · intro t_az t_rng hok
      have hchecklen : (burstRectCheck burst_az_boundaries burst_rng_boundaries
          (Except.ok (t_az, t_rng))).length = burst_az_boundaries.length := by
        simp [burstRectCheck, hlen]
      have hcheckat : ∀ j, ((burstRectCheck burst_az_boundaries burst_rng_boundaries
          (Except.ok (t_az, t_rng)))[j]? = some true) ↔
          (j < burst_az_boundaries.length ∧
            insideBurstRect burst_az_boundaries burst_rng_boundaries j t_az t_rng) := by
        intro j
        rw [List.getElem?_eq_some]
        constructor
        · rintro ⟨hjlt, hjv⟩
          have hjaz : j < burst_az_boundaries.length := by rwa [hchecklen] at hjlt
          have hjrng : j < burst_rng_boundaries.length := by rwa [hlen] at hjaz
          refine ⟨hjaz, ?_⟩
          simp only [burstRectCheck, List.getElem_zipWith, Bool.and_eq_true,
            decide_eq_true_eq] at hjv
          obtain ⟨⟨h1, h2⟩, h3, h4⟩ := hjv
          unfold insideBurstRect
          rw [List.getD_eq_getElem _ _ hjaz, List.getD_eq_getElem _ _ hjrng]
          exact ⟨h1, h2, h3, h4⟩
        · rintro ⟨hjaz, hins⟩
          have hjrng : j < burst_rng_boundaries.length := by rwa [hlen] at hjaz
          refine ⟨by rw [hchecklen]; exact hjaz, ?_⟩
          simp only [burstRectCheck, List.getElem_zipWith, Bool.and_eq_true,
            decide_eq_true_eq]
          unfold insideBurstRect at hins
          rw [List.getD_eq_getElem _ _ hjaz, List.getD_eq_getElem _ _ hjrng] at hins
          exact ⟨⟨hins.1, hins.2.1⟩, hins.2.2.1, hins.2.2.2⟩
      have hmem : ∀ j, (j ∈ (burstRectCheck burst_az_boundaries burst_rng_boundaries
          (Except.ok (t_az, t_rng))).enum.filterMap fun p =>
            if p.2 then some p.1 else none) ↔
          (j < burst_az_boundaries.length ∧
            insideBurstRect burst_az_boundaries burst_rng_boundaries j t_az t_rng) := by
        intro j
        rw [mem_enum_filterMap_true, hcheckat]
      constructor
      · intro hnomatch
        have hnil : ((burstRectCheck burst_az_boundaries burst_rng_boundaries
            (Except.ok (t_az, t_rng))).enum.filterMap fun p =>
              if p.2 then some p.1 else none) = [] := by
          rw [List.eq_nil_iff_forall_not_mem]
          intro j hj
          rw [hmem j] at hj
          exact hnomatch j hj.1 hj.2
        rw [hentry, hok, if_pos (by rw [hnil]; rfl)]
      · intro j0 hj0 hins0
        have hj0mem : j0 ∈ (burstRectCheck burst_az_boundaries burst_rng_boundaries
            (Except.ok (t_az, t_rng))).enum.filterMap fun p =>
              if p.2 then some p.1 else none := (hmem j0).mpr ⟨hj0, hins0⟩
        have hne : ¬(((burstRectCheck burst_az_boundaries burst_rng_boundaries
            (Except.ok (t_az, t_rng))).enum.filterMap fun p =>
              if p.2 then some p.1 else none).isEmpty = true) := by
          intro hemp
          rw [List.isEmpty_iff] at hemp
          rw [hemp] at hj0mem
          exact List.not_mem_nil j0 hj0mem
        refine ⟨(burstRectCheck burst_az_boundaries burst_rng_boundaries
            (Except.ok (t_az, t_rng))).enum.filterMap fun p =>
              if p.2 then some p.1 else none, ?_, hmem⟩
        rw [hentry, hok, if_neg hne]

/-- C4 witness: a two-point batch on two overlapping burst rectangles, where
geocoding fails on the first point and puts the second strictly inside both
rectangles: the first entry is `none`, the second lists both bursts, and the
batch is fully processed. -/
theorem c4_ground_point_association_witness :
    (([((0:ℚ), (2:ℚ)), (0, 2)] : List (ℚ × ℚ)).length
      = ([((0:ℚ), (2:ℚ)), (0, 2)] : List (ℚ × ℚ)).length) ∧
    (groundPointsToBurstAssociation
      (fun p : ℕ => if p = 0 then Except.error "no convergence"
        else Except.ok ((1 : ℚ), (1 : ℚ)))
      [((0:ℚ), (2:ℚ)), (0, 2)] [((0:ℚ), (2:ℚ)), (0, 2)] [0, 1]).length = 2 ∧
    groundPointsToBurstAssociation
      (fun p : ℕ => if p = 0 then Except.error "no convergence"
        else Except.ok ((1 : ℚ), (1 : ℚ)))
      [((0:ℚ), (2:ℚ)), (0, 2)] [((0:ℚ), (2:ℚ)), (0, 2)] [0, 1]
      = [none, some [0, 1]] := by
  refine ⟨rfl, ?_, by decide⟩
  exact (c4_ground_point_association
    (fun p : ℕ => if p = 0 then Except.error "no convergence"
      else Except.ok ((1 : ℚ), (1 : ℚ)))
    [((0:ℚ), (2:ℚ)), (0, 2)] [((0:ℚ), (2:ℚ)), (0, 2)] rfl [0, 1]).1

/-- Unfolding of `iceye_read_data` into its guard cascade. -/
theorem iceye_read_data_eq (lines samples : ℕ)
    (read_channel : ℚ × ℚ × ℕ × ℕ → List (List ℚ))
    (native output : SARRadiometricQuantity)
    (conv : ℚ × ℚ × ℕ × ℕ → List (List ℚ) → List (List ℚ))
    (a r : ℚ) (W H : ℕ) :
    iceye_read_data lines samples read_channel native output conv a r (W, H)
      = (if a - ((H / 2 : ℕ) : ℚ) > (lines : ℚ) ∨ a - ((H / 2 : ℕ) : ℚ) < 0 then
          Except.error (ReadBoundaryError.azimuthExceedsBoundaries (a - ((H / 2 : ℕ) : ℚ)))
        else if r - ((W / 2 : ℕ) : ℚ) > (samples : ℚ) ∨ r - ((W / 2 : ℕ) : ℚ) < 0 then
          Except.error (ReadBoundaryError.rangeExceedsBoundaries (r - ((W / 2 : ℕ) : ℚ)))
        else if a - ((H / 2 : ℕ) : ℚ) + (H : ℚ) > (lines : ℚ) then
          Except.error (ReadBoundaryError.azimuthExceedsBoundaries
            (a - ((H / 2 : ℕ) : ℚ) + (H : ℚ)))
        else if r - ((W / 2 : ℕ) : ℚ) + (W : ℚ) > (samples : ℚ) then
          Except.error (ReadBoundaryError.rangeExceedsBoundaries
            (r - ((W / 2 : ℕ) : ℚ) + (W : ℚ)))
        else if native ≠ output then
          Except.ok (conv (a - ((H / 2 : ℕ) : ℚ), r - ((W / 2 : ℕ) : ℚ), H, W)
            (transposeLL (read_channel
              (a - ((H / 2 : ℕ) : ℚ), r - ((W / 2 : ℕ) : ℚ), H, W))))
        else Except.ok (transposeLL (read_channel
          (a - ((H / 2 : ℕ) : ℚ), r - ((W / 2 : ℕ) : ℚ), H, W)))) := rfl

/-- Complete case analysis of the `read_data` guard cascade: which error is
raised under which combination of the four boundary conditions (checked in
order), and the exact successful result when all pass. -/
theorem read_data_boundary_cases (lines samples : ℕ)
    (read_channel : ℚ × ℚ × ℕ × ℕ → List (List ℚ))
    (native output : SARRadiometricQuantity)
    (conv : ℚ × ℚ × ℕ × ℕ → List (List ℚ) → List (List ℚ))
    (a r : ℚ) (W H : ℕ) :
    ((∃ v, iceye_read_data lines samples read_channel native output conv a r (W, H)
        = Except.error (ReadBoundaryError.azimuthExceedsBoundaries v)) ↔
      ((a - ((H / 2 : ℕ) : ℚ) > (lines : ℚ) ∨ a - ((H / 2 : ℕ) : ℚ) < 0) ∨
        (¬(r - ((W / 2 : ℕ) : ℚ) > (samples : ℚ) ∨ r - ((W / 2 : ℕ) : ℚ) < 0) ∧
          a - ((H / 2 : ℕ) : ℚ) + (H : ℚ) > (lines : ℚ)))) ∧
    ((∃ v, iceye_read_data lines samples read_channel native output conv a r (W, H)
        = Except.error (ReadBoundaryError.rangeExceedsBoundaries v)) ↔
      ((¬(a - ((H / 2 : ℕ) : ℚ) > (lines : ℚ) ∨ a - ((H / 2 : ℕ) : ℚ) < 0) ∧
          (r - ((W / 2 : ℕ) : ℚ) > (samples : ℚ) ∨ r - ((W / 2 : ℕ) : ℚ) < 0)) ∨
        (¬(a - ((H / 2 : ℕ) : ℚ) > (lines : ℚ) ∨ a - ((H / 2 : ℕ) : ℚ) < 0) ∧
          ¬(r - ((W / 2 : ℕ) : ℚ) > (samples : ℚ) ∨ r - ((W / 2 : ℕ) : ℚ) < 0) ∧
          ¬(a - ((H / 2 : ℕ) : ℚ) + (H : ℚ) > (lines : ℚ)) ∧
          r - ((W / 2 : ℕ) : ℚ) + (W : ℚ) > (samples : ℚ)))) ∧
    (¬(a - ((H / 2 : ℕ) : ℚ) > (lines : ℚ) ∨ a - ((H / 2 : ℕ) : ℚ) < 0) →
      ¬(r - ((W / 2 : ℕ) : ℚ) > (samples : ℚ) ∨ r - ((W / 2 : ℕ) : ℚ) < 0) →
      ¬(a - ((H / 2 : ℕ) : ℚ) + (H : ℚ) > (lines : ℚ)) →
      ¬(r - ((W / 2 : ℕ) : ℚ) + (W : ℚ) > (samples : ℚ)) →
      iceye_read_data lines samples read_channel native output conv a r (W, H)
        = (if native ≠ output then
            Except.ok (conv (a - ((H / 2 : ℕ) : ℚ), r - ((W / 2 : ℕ) : ℚ), H, W)
              (transposeLL (read_channel
                (a - ((H / 2 : ℕ) : ℚ), r - ((W / 2 : ℕ) : ℚ), H, W))))
          else Except.ok (transposeLL (read_channel
            (a - ((H / 2 : ℕ) : ℚ), r - ((W / 2 : ℕ) : ℚ), H, W))))) := by
  by_cases h1 : a - ((H / 2 : ℕ) : ℚ) > (lines : ℚ) ∨ a - ((H / 2 : ℕ) : ℚ) < 0
  · have hres : iceye_read_data lines samples read_channel native output conv a r (W, H)
        = Except.error (ReadBoundaryError.azimuthExceedsBoundaries
            (a - ((H / 2 : ℕ) : ℚ))) := by
      rw [iceye_read_data_eq, if_pos h1]
    refine ⟨iff_of_true ⟨_, hres⟩ (Or.inl h1), ?_, ?_⟩
    · apply iff_of_false
      · rintro ⟨v, hv⟩
        rw [hres] at hv
        simp at hv
      · rintro (⟨hna, _⟩ | ⟨hna, _⟩) <;> exact hna h1
    · intro hna _ _ _
      exact absurd h1 hna
  · by_cases h2 : r - ((W / 2 : ℕ) : ℚ) > (samples : ℚ) ∨ r - ((W / 2 : ℕ) : ℚ) < 0
    · have hres : iceye_read_data lines samples read_channel native output conv a r (W, H)
          = Except.error (ReadBoundaryError.rangeExceedsBoundaries
              (r - ((W / 2 : ℕ) : ℚ))) := by
        rw [iceye_read_data_eq, if_neg h1, if_pos h2]
      refine ⟨?_, iff_of_true ⟨_, hres⟩ (Or.inl ⟨h1, h2⟩), ?_⟩
      · apply iff_of_false
        · rintro ⟨v, hv⟩
          rw [hres] at hv
          simp at hv
        · rintro (h1' | ⟨hnr, _⟩)
          · exact h1 h1'
          · exact hnr h2
      · intro _ hnr _ _
        exact absurd h2 hnr
    · by_cases h3 : a - ((H / 2 : ℕ) : ℚ) + (H : ℚ) > (lines : ℚ)
      · have hres : iceye_read_data lines samples read_channel native output conv a r (W, H)
            = Except.error (ReadBoundaryError.azimuthExceedsBoundaries
                (a - ((H / 2 : ℕ) : ℚ) + (H : ℚ))) := by
          rw [iceye_read_data_eq, if_neg h1, if_neg h2, if_pos h3]
        refine ⟨iff_of_true ⟨_, hres⟩ (Or.inr ⟨h2, h3⟩), ?_, ?_⟩
        · apply iff_of_false
          · rintro ⟨v, hv⟩
            rw [hres] at hv
            simp at hv
          · rintro (⟨_, h2'⟩ | ⟨_, _, h3', _⟩)
            · exact h2 h2'
            · exact h3' h3
        · intro _ _ hne _
          exact absurd h3 hne
      · by_cases h4 : r - ((W / 2 : ℕ) : ℚ) + (W : ℚ) > (samples : ℚ)
        · have hres : iceye_read_data lines samples read_channel native output conv a r
              (W, H) = Except.error (ReadBoundaryError.rangeExceedsBoundaries
                (r - ((W / 2 : ℕ) : ℚ) + (W : ℚ))) := by
            rw [iceye_read_data_eq, if_neg h1, if_neg h2, if_neg h3, if_pos h4]
          refine ⟨?_, iff_of_true ⟨_, hres⟩ (Or.inr ⟨h1, h2, h3, h4⟩), ?_⟩
          · apply iff_of_false
            · rintro ⟨v, hv⟩
              rw [hres] at hv
              simp at hv
            · rintro (h1' | ⟨_, h3'⟩)
              · exact h1 h1'
              · exact h3 h3'
          · intro _ _ _ hnre
            exact absurd h4 hnre
        · have hres : iceye_read_data lines samples read_channel native output conv a r
              (W, H) = (if native ≠ output then
                Except.ok (conv (a - ((H / 2 : ℕ) : ℚ), r - ((W / 2 : ℕ) : ℚ), H, W)
                  (transposeLL (read_channel
                    (a - ((H / 2 : ℕ) : ℚ), r - ((W / 2 : ℕ) : ℚ), H, W))))
              else Except.ok (transposeLL (read_channel
                (a - ((H / 2 : ℕ) : ℚ), r - ((W / 2 : ℕ) : ℚ), H, W)))) := by
            rw [iceye_read_data_eq, if_neg h1, if_neg h2, if_neg h3, if_neg h4]
          refine ⟨?_, ?_, fun _ _ _ _ => hres⟩
          · apply iff_of_false
            · rintro ⟨v, hv⟩
              rw [hres] at hv
              split_ifs at hv
            · rintro (h1' | ⟨_, h3'⟩)
              · exact h1 h1'
              · exact h3 h3'
          · apply iff_of_false
            · rintro ⟨v, hv⟩
              rw [hres] at hv
              split_ifs at hv
            · rintro (⟨_, h2'⟩ | ⟨_, _, _, h4'⟩)
              · exact h2 h2'
              · exact h4 h4'

/-- C5: identity radiometric conversion: when the requested output quantity
equals the channel native quantity, `read_data` returns exactly the
calibration-scaled (transposed) raw read and the radiometric conversion
collaborator is never invoked (the result does not depend on it), for both
the ICEYE and the ASAR managers. -/
theorem c5_identity_radiometric_conversion :
    (∀ (lines samples : ℕ) (read_channel : ℚ × ℚ × ℕ × ℕ → List (List ℚ))
      (q : SARRadiometricQuantity)
      (conv conv' : ℚ × ℚ × ℕ × ℕ → List (List ℚ) → List (List ℚ))
      (azimuth_index range_index : ℚ) (cropping_size : ℕ × ℕ),
      iceye_read_data lines samples read_channel q q conv azimuth_index range_index
          cropping_size
        = iceye_read_data lines samples read_channel q q conv' azimuth_index range_index
          cropping_size ∧
      ∀ w, iceye_read_data lines samples read_channel q q conv azimuth_index range_index
          cropping_size = Except.ok w →
        w = transposeLL (read_channel
          (iceye_target_block azimuth_index range_index cropping_size))) ∧
    (∀ (lines samples : ℕ) (read_channel : ℚ × ℚ × ℕ × ℕ → List (List ℚ))
      (q : SARRadiometricQuantity)
      (conv conv' : ℚ × ℚ × ℕ × ℕ → List (List ℚ) → List (List ℚ))
      (azimuth_index range_index : ℚ) (cropping_size : ℕ × ℕ) (burst : Option ℕ),
      asar_read_data lines samples read_channel q q conv azimuth_index range_index
          cropping_size burst
        = asar_read_data lines samples read_channel q q conv' azimuth_index range_index
          cropping_size burst ∧
      ∀ w, asar_read_data lines samples read_channel q q conv azimuth_index range_index
          cropping_size burst = Except.ok w →
        w = transposeLL (read_channel (iceye_target_block azimuth_index
          ((samples : ℚ) - range_index) cropping_size))) := by
  constructor
  · intro lines samples read_channel q conv conv' a r sz
    constructor
    · simp [iceye_read_data]
    · intro w hw
      simp only [iceye_read_data] at hw
      split_ifs at hw with h1 h2 h3 h4 h5
      · exact absurd rfl h5
      · simpa using hw.symm
  · intro lines samples read_channel q conv conv' a r sz burst
    constructor
    · simp [asar_read_data]
    · intro w hw
      simp only [asar_read_data] at hw
      split_ifs at hw with h1 h2 h3 h4 h5
      · exact absurd rfl h5
      · simpa using hw.symm

/-- C6: the ASAR `read_data` accepts a `burst` argument whose documented
contract is to raise a boundary error when the requested region crosses the
supplied burst's bounds, but the body never uses the argument: the result is
identical for every `burst` value, and a crop centred on azimuth index 500
with 2 lines on a 1000-line raster with 500-line bursts crosses burst 0's
upper row bound (499 + 2 > 500) yet succeeds when called with burst 0. -/
theorem c6_burst_argument_ignored :
    (∀ (lines samples : ℕ) (read_channel : ℚ × ℚ × ℕ × ℕ → List (List ℚ))
      (native output : SARRadiometricQuantity)
      (conv : ℚ × ℚ × ℕ × ℕ → List (List ℚ) → List (List ℚ))
      (azimuth_index range_index : ℚ) (cropping_size : ℕ × ℕ)
      (burst burst' : Option ℕ),
      asar_read_data lines samples read_channel native output conv azimuth_index
          range_index cropping_size burst
        = asar_read_data lines samples read_channel native output conv azimuth_index
          range_index cropping_size burst') ∧
    asar_read_data 1000 50 (fun _ => [[0, 0], [0, 0]])
      SARRadiometricQuantity.beta_nought SARRadiometricQuantity.beta_nought
      (fun _ data => data) 500 25 (2, 2) (some 0)
      = Except.ok [[0, 0], [0, 0]] ∧
    ((500 : ℚ) - 1) + 2 > (0 : ℚ) + (twoBurstInfo.lines_per_burst : ℚ) ∧
    ((500 : ℚ) - 1) + 2 ≤ 1000 := by
  refine ⟨fun _ _ _ _ _ _ _ _ _ _ _ => rfl, ?_, by norm_num [twoBurstInfo], by norm_num⟩
  have h := (read_data_boundary_cases 1000 50 (fun _ => [[0, 0], [0, 0]])
    SARRadiometricQuantity.beta_nought SARRadiometricQuantity.beta_nought
    (fun _ data => data) 500 (((50 : ℕ) : ℚ) - 25) 2 2).2.2
  have hm : asar_read_data 1000 50 (fun _ => [[0, 0], [0, 0]])
      SARRadiometricQuantity.beta_nought SARRadiometricQuantity.beta_nought
      (fun _ data => data) 500 25 (2, 2) (some 0)
      = iceye_read_data 1000 50 (fun _ => [[0, 0], [0, 0]])
        SARRadiometricQuantity.beta_nought SARRadiometricQuantity.beta_nought
        (fun _ data => data) 500 (((50 : ℕ) : ℚ) - 25) (2, 2) := rfl
  rw [hm, h (by norm_num) (by norm_num) (by norm_num) (by norm_num)]
  norm_num [transposeLL, List.range_succ]

/-- C2 counterexample: on the ASAR manager, `read_data(50, 10, (2, 2))` on a
1000-line/50-sample raster requests the raw block starting at sample 39, not
at `10 - floor(2/2) = 9` as the claimed universal formula states (the probe
reader returns the requested block start coordinates). -/
theorem c2_crop_block_counterexample :
    asar_read_data 1000 50 (fun tb => [[tb.1, tb.2.1]])
      SARRadiometricQuantity.beta_nought SARRadiometricQuantity.beta_nought
      (fun _ data => data) 50 10 (2, 2) none
      = Except.ok [[49], [39]] ∧ (39 : ℚ) ≠ 10 - 1 := by
  constructor
  · have h := (read_data_boundary_cases 1000 50 (fun tb => [[tb.1, tb.2.1]])
      SARRadiometricQuantity.beta_nought SARRadiometricQuantity.beta_nought
      (fun _ data => data) 50 (((50 : ℕ) : ℚ) - 10) 2 2).2.2
    have hm : asar_read_data 1000 50 (fun tb => [[tb.1, tb.2.1]])
        SARRadiometricQuantity.beta_nought SARRadiometricQuantity.beta_nought
        (fun _ data => data) 50 10 (2, 2) none
        = iceye_read_data 1000 50 (fun tb => [[tb.1, tb.2.1]])
          SARRadiometricQuantity.beta_nought SARRadiometricQuantity.beta_nought
          (fun _ data => data) 50 (((50 : ℕ) : ℚ) - 10) (2, 2) := rfl
    rw [hm, h (by norm_num) (by norm_num) (by norm_num) (by norm_num)]
    norm_num [transposeLL, iceye_target_block, List.range_succ]
  · norm_num

/-- C2 (amended): crop block and boundary errors of `read_data`.  For the
ICEYE manager the raw block is `[a - H/2, r - W/2, H, W]` (floor centering);
the ASAR manager first mirrors the range index to `samples - r` before the
same centering.  The four boundary checks run in order (azimuth start, range
start, azimuth end, range end): the azimuth-boundary error is raised exactly
when the azimuth start is out of bounds, or the azimuth end exceeds the line
count with the range start in bounds; the range-boundary error exactly when
the range start is out of bounds with the azimuth start in bounds, or the
range end exceeds the sample count with the three earlier checks passing.
On a 1000-line/50-sample raster, `read_data(50, 10, (2, 2))` succeeds reading
the 2 x 2 block starting at line 49 and sample 9 (ICEYE) or sample 39 (ASAR),
and `read_data(-5, 10, (2, 2))` raises the azimuth-boundary error on both. -/
theorem c2_crop_block_and_boundary_errors :
    (∀ (lines samples : ℕ) (read_channel : ℚ × ℚ × ℕ × ℕ → List (List ℚ))
      (native output : SARRadiometricQuantity)
      (conv : ℚ × ℚ × ℕ × ℕ → List (List ℚ) → List (List ℚ)) (a r : ℚ) (W H : ℕ),
      ((∃ v, iceye_read_data lines samples read_channel native output conv a r (W, H)
          = Except.error (ReadBoundaryError.azimuthExceedsBoundaries v)) ↔
        (azStartOut lines (a - ((H / 2 : ℕ) : ℚ)) ∨
          (¬ rngStartOut samples (r - ((W / 2 : ℕ) : ℚ)) ∧
            azEndOut lines (a - ((H / 2 : ℕ) : ℚ)) H))) ∧
      ((∃ v, iceye_read_data lines samples read_channel native output conv a r (W, H)
          = Except.error (ReadBoundaryError.rangeExceedsBoundaries v)) ↔
        ((¬ azStartOut lines (a - ((H / 2 : ℕ) : ℚ)) ∧
            rngStartOut samples (r - ((W / 2 : ℕ) : ℚ))) ∨
          (¬ azStartOut lines (a - ((H / 2 : ℕ) : ℚ)) ∧
            ¬ rngStartOut samples (r - ((W / 2 : ℕ) : ℚ)) ∧
            ¬ azEndOut lines (a - ((H / 2 : ℕ) : ℚ)) H ∧
            rngEndOut samples (r - ((W / 2 : ℕ) : ℚ)) W))) ∧
      (¬ azStartOut lines (a - ((H / 2 : ℕ) : ℚ)) →
        ¬ rngStartOut samples (r - ((W / 2 : ℕ) : ℚ)) →
        ¬ azEndOut lines (a - ((H / 2 : ℕ) : ℚ)) H →
        ¬ rngEndOut samples (r - ((W / 2 : ℕ) : ℚ)) W →
        iceye_read_data lines samples read_channel native output conv a r (W, H)
          = (if native ≠ output then
              Except.ok (conv (a - ((H / 2 : ℕ) : ℚ), r - ((W / 2 : ℕ) : ℚ), H, W)
                (transposeLL (read_channel
                  (a - ((H / 2 : ℕ) : ℚ), r - ((W / 2 : ℕ) : ℚ), H, W))))
            else Except.ok (transposeLL (read_channel
              (a - ((H / 2 : ℕ) : ℚ), r - ((W / 2 : ℕ) : ℚ), H, W)))))) ∧
    (∀ (lines samples : ℕ) (read_channel : ℚ × ℚ × ℕ × ℕ → List (List ℚ))
      (native output : SARRadiometricQuantity)
      (conv : ℚ × ℚ × ℕ × ℕ → List (List ℚ) → List (List ℚ)) (a r : ℚ) (W H : ℕ)
      (burst : Option ℕ),
      ((∃ v, asar_read_data lines samples read_channel native output conv a r (W, H) burst
          = Except.error (ReadBoundaryError.azimuthExceedsBoundaries v)) ↔
        (azStartOut lines (a - ((H / 2 : ℕ) : ℚ)) ∨
          (¬ rngStartOut samples ((samples : ℚ) - r - ((W / 2 : ℕ) : ℚ)) ∧
            azEndOut lines (a - ((H / 2 : ℕ) : ℚ)) H))) ∧
      ((∃ v, asar_read_data lines samples read_channel native output conv a r (W, H) burst
          = Except.error (ReadBoundaryError.rangeExceedsBoundaries v)) ↔
        ((¬ azStartOut lines (a - ((H / 2 : ℕ) : ℚ)) ∧
            rngStartOut samples ((samples : ℚ) - r - ((W / 2 : ℕ) : ℚ))) ∨
          (¬ azStartOut lines (a - ((H / 2 : ℕ) : ℚ)) ∧
            ¬ rngStartOut samples ((samples : ℚ) - r - ((W / 2 : ℕ) : ℚ)) ∧
            ¬ azEndOut lines (a - ((H / 2 : ℕ) : ℚ)) H ∧
            rngEndOut samples ((samples : ℚ) - r - ((W / 2 : ℕ) : ℚ)) W))) ∧
      (¬ azStartOut lines (a - ((H / 2 : ℕ) : ℚ)) →
        ¬ rngStartOut samples ((samples : ℚ) - r - ((W / 2 : ℕ) : ℚ)) →
        ¬ azEndOut lines (a - ((H / 2 : ℕ) : ℚ)) H →
        ¬ rngEndOut samples ((samples : ℚ) - r - ((W / 2 : ℕ) : ℚ)) W →
        asar_read_data lines samples read_channel native output conv a r (W, H) burst
          = (if native ≠ output then
              Except.ok (conv (a - ((H / 2 : ℕ) : ℚ),
                  (samples : ℚ) - r - ((W / 2 : ℕ) : ℚ), H, W)
                (transposeLL (read_channel (a - ((H / 2 : ℕ) : ℚ),
                  (samples : ℚ) - r - ((W / 2 : ℕ) : ℚ), H, W))))
            else Except.ok (transposeLL (read_channel (a - ((H / 2 : ℕ) : ℚ),
              (samples : ℚ) - r - ((W / 2 : ℕ) : ℚ), H, W)))))) ∧
    (∀ (read_channel : ℚ × ℚ × ℕ × ℕ → List (List ℚ))
      (conv : ℚ × ℚ × ℕ × ℕ → List (List ℚ) → List (List ℚ))
      (q : SARRadiometricQuantity),
      iceye_read_data 1000 50 read_channel q q conv 50 10 (2, 2)
        = Except.ok (transposeLL (read_channel (49, 9, 2, 2)))) ∧
    (∀ (read_channel : ℚ × ℚ × ℕ × ℕ → List (List ℚ))
      (native output : SARRadiometricQuantity)
      (conv : ℚ × ℚ × ℕ × ℕ → List (List ℚ) → List (List ℚ)), ∃ v,
      iceye_read_data 1000 50 read_channel native output conv (-5) 10 (2, 2)
        = Except.error (ReadBoundaryError.azimuthExceedsBoundaries v)) ∧
    (∀ (read_channel : ℚ × ℚ × ℕ × ℕ → List (List ℚ))
      (conv : ℚ × ℚ × ℕ × ℕ → List (List ℚ) → List (List ℚ))
      (q : SARRadiometricQuantity) (burst : Option ℕ),
      asar_read_data 1000 50 read_channel q q conv 50 10 (2, 2) burst
        = Except.ok (transposeLL (read_channel (49, 39, 2, 2)))) ∧
    (∀ (read_channel : ℚ × ℚ × ℕ × ℕ → List (List ℚ))
      (native output : SARRadiometricQuantity)
      (conv : ℚ × ℚ × ℕ × ℕ → List (List ℚ) → List (List ℚ)) (burst : Option ℕ), ∃ v,
      asar_read_data 1000 50 read_channel native output conv (-5) 10 (2, 2) burst
        = Except.error (ReadBoundaryError.azimuthExceedsBoundaries v)) := by
  refine ⟨?_, ?_, ?_, ?_, ?_, ?_⟩
  · intro lines samples read_channel native output conv a r W H
    simpa only [azStartOut, rngStartOut, azEndOut, rngEndOut] using
      read_data_boundary_cases lines samples read_channel native output conv a r W H
  · intro lines samples read_channel native output conv a r W H burst
    have hm : asar_read_data lines samples read_channel native output conv a r (W, H) burst
        = iceye_read_data lines samples read_channel native output conv a
          ((samples : ℚ) - r) (W, H) := rfl
    rw [hm]
    simpa only [azStartOut, rngStartOut, azEndOut, rngEndOut] using
      read_data_boundary_cases lines samples read_channel native output conv a
        ((samples : ℚ) - r) W H
  · intro read_channel conv q
    have h := (read_data_boundary_cases 1000 50 read_channel q q conv 50 10 2 2).2.2
      (by norm_num) (by norm_num) (by norm_num) (by norm_num)
    rw [h]
    norm_num
  · intro read_channel native output conv
    exact (read_data_boundary_cases 1000 50 read_channel native output conv
      (-5) 10 2 2).1.mpr (Or.inl (by norm_num))
  · intro read_channel conv q burst
    have hm : asar_read_data 1000 50 read_channel q q conv 50 10 (2, 2) burst
        = iceye_read_data 1000 50 read_channel q q conv 50 (((50 : ℕ) : ℚ) - 10)
          (2, 2) := rfl
    have h := (read_data_boundary_cases 1000 50 read_channel q q conv 50
      (((50 : ℕ) : ℚ) - 10) 2 2).2.2 (by norm_num) (by norm_num) (by norm_num) (by norm_num)
    rw [hm, h]
    norm_num
  · intro read_channel native output conv burst
    have hm : asar_read_data 1000 50 read_channel native output conv (-5) 10 (2, 2) burst
        = iceye_read_data 1000 50 read_channel native output conv (-5)
          (((50 : ℕ) : ℚ) - 10) (2, 2) := rfl
    rw [hm]
    exact (read_data_boundary_cases 1000 50 read_channel native output conv
      (-5) (((50 : ℕ) : ℚ) - 10) 2 2).1.mpr (Or.inl (by norm_num))

/-- C2 witness: on a 1000-line/50-sample ICEYE raster with a probe reader
that reports the requested block start, `read_data(50, 10, (2, 2))` reads the
block starting at line 49 and sample 9, and `read_data(-5, 10, (2, 2))`
raises the azimuth-boundary error. -/
theorem c2_crop_block_and_boundary_errors_witness :
    iceye_read_data 1000 50 (fun tb => [[tb.1, tb.2.1]])
        SARRadiometricQuantity.beta_nought SARRadiometricQuantity.beta_nought
        (fun _ data => data) 50 10 (2, 2)
      = Except.ok [[49], [9]] ∧
    (∃ v, iceye_read_data 1000 50 (fun tb => [[tb.1, tb.2.1]])
        SARRadiometricQuantity.beta_nought SARRadiometricQuantity.beta_nought
        (fun _ data => data) (-5) 10 (2, 2)
      = Except.error (ReadBoundaryError.azimuthExceedsBoundaries v)) := by
  constructor
  · have h := c2_crop_block_and_boundary_errors.2.2.1 (fun tb => [[tb.1, tb.2.1]])
      (fun _ data => data) SARRadiometricQuantity.beta_nought
    rw [h]
    norm_num [transposeLL, List.range_succ]
  · exact c2_crop_block_and_boundary_errors.2.2.2.1 (fun tb => [[tb.1, tb.2.1]])
      SARRadiometricQuantity.beta_nought SARRadiometricQuantity.beta_nought
      (fun _ data => data)

/-- The conversion surfaces of `groundRangeChannel` are exact inverses of
each other at every fixed azimuth time. -/
theorem groundRangeChannel_surfaces_inverse (t v : ℚ) :
    groundRangeChannel.coordinate_conversions.evaluate_slant_to_ground t
        (groundRangeChannel.coordinate_conversions.evaluate_ground_to_slant t v) = v ∧
      groundRangeChannel.coordinate_conversions.evaluate_ground_to_slant t
        (groundRangeChannel.coordinate_conversions.evaluate_slant_to_ground t v) = v := by
  constructor <;> simp [groundRangeChannel]

/-- C1 (amended): round-trip of the pixel/time converter.  For every channel,
every burst index `b`, and every pixel `(a, r)` within bounds whose row lies
in burst `b`, `times_to_pixel(pixel_to_times(a, r, burst=b), burst=b)` equals
`(a, r)` exactly, provided both steps are nonzero and, when the projection is
ground-range, the slant-to-ground surface evaluated at the pixel azimuth time
inverts the ground-to-slant evaluation made at the mid azimuth time (in
particular whenever the surfaces do not depend on the azimuth time).  The
forward conversion evaluates ground-to-slant at the mid azimuth time while
the inverse evaluates slant-to-ground at the query azimuth time, so the
azimuth-independence proviso cannot be dropped. -/
theorem c1_pixel_time_roundtrip (ch : ChannelGeometry) (a r : ℚ) (b : ℕ)
    (hl : ch.raster_info.lines_step ≠ 0) (hs : ch.raster_info.samples_step ≠ 0)
    (hb : b < ch.burst_info.num)
    (ha0 : 0 ≤ a) (ha1 : a < (ch.raster_info.lines : ℚ))
    (hr0 : 0 ≤ r) (hr1 : r < (ch.raster_info.samples : ℚ))
    (hrow0 : (ch.burst_info.lines_per_burst : ℚ) * (b : ℚ) ≤ a)
    (hrow1 : a < (ch.burst_info.lines_per_burst : ℚ) * ((b : ℚ) + 1))
    (hsurf : ch.projection = SARProjection.ground_range →
      ∀ t v, ch.coordinate_conversions.evaluate_slant_to_ground t
        (ch.coordinate_conversions.evaluate_ground_to_slant (midAzimuthTime ch) v) = v) :
    times_to_pixel_conversion ch (pixel_to_times_conversion ch a r (some b)).1
      (pixel_to_times_conversion ch a r (some b)).2 (some b) = Except.ok (a, r) := by
  have hnum : 0 < ch.burst_info.num := Nat.lt_of_le_of_lt (Nat.zero_le b) hb
  have haz : (pixel_to_times_conversion ch a r (some b)).1
      = (a - (ch.burst_info.lines_per_burst : ℚ) * (b : ℚ)) * ch.raster_info.lines_step
        + ch.burst_info.azimuth_start_times.getD b 0 := by
    simp [pixel_to_times_conversion, hnum]
  cases hproj : ch.projection with
  | slant_range =>
    have hne : SARProjection.slant_range ≠ SARProjection.ground_range := by decide
    have hrng : (pixel_to_times_conversion ch a r (some b)).2
        = r * ch.raster_info.samples_step + ch.raster_info.samples_start := by
      simp [pixel_to_times_conversion, hproj, hne]
    rw [times_to_pixel_conversion, haz, hrng, hproj]
    simp only [if_pos hnum, if_neg hne]
    rw [Except.ok.injEq, Prod.mk.injEq]
    refine ⟨?_, ?_⟩
    · field_simp
    · field_simp
  | ground_range =>
    have hinv := hsurf hproj
    have hrng : (pixel_to_times_conversion ch a r (some b)).2
        = ch.coordinate_conversions.evaluate_ground_to_slant (midAzimuthTime ch)
            (r * ch.raster_info.samples_step + ch.raster_info.samples_start) := by
      simp [pixel_to_times_conversion, hproj]
    rw [times_to_pixel_conversion, haz, hrng, hproj]
    simp only [if_pos hnum, eq_self_iff_true, if_true, hinv]
    rw [Except.ok.injEq, Prod.mk.injEq]
    refine ⟨?_, ?_⟩
    · field_simp
    · field_simp

/-- C1 witness: on the spec's concrete slant-range scenario channel,
`pixel_to_times(10, 5, burst=0) = (T0 + 1.0 s, 1.0)` and the round trip
returns `(10, 5)` exactly. -/
theorem c1_pixel_time_roundtrip_witness :
    (scenarioChannel.raster_info.lines_step ≠ 0 ∧
      scenarioChannel.raster_info.samples_step ≠ 0 ∧
      0 < scenarioChannel.burst_info.num) ∧
    pixel_to_times_conversion scenarioChannel 10 5 (some 0) = (1, 1) ∧
    times_to_pixel_conversion scenarioChannel
        (pixel_to_times_conversion scenarioChannel 10 5 (some 0)).1
        (pixel_to_times_conversion scenarioChannel 10 5 (some 0)).2 (some 0)
      = Except.ok (10, 5) := by
  refine ⟨⟨?_, ?_, by decide⟩, ?_, ?_⟩
  · norm_num [scenarioChannel, scenarioRaster]
  · norm_num [scenarioChannel, scenarioRaster]
  · norm_num [pixel_to_times_conversion, scenarioChannel, scenarioRaster, scenarioBurst,
      (show SARProjection.slant_range ≠ SARProjection.ground_range from by decide)]
  · exact c1_pixel_time_roundtrip scenarioChannel 10 5 0
      (by norm_num [scenarioChannel, scenarioRaster])
      (by norm_num [scenarioChannel, scenarioRaster])
      (by decide)
      (by norm_num)
      (by norm_num [scenarioChannel, scenarioRaster])
      (by norm_num)
      (by norm_num [scenarioChannel, scenarioRaster])
      (by norm_num [scenarioChannel, scenarioBurst])
      (by norm_num [scenarioChannel, scenarioBurst])
      (by intro h; simp [scenarioChannel] at h)

/-- C1 counterexample: on a ground-range channel whose conversion surfaces
are exact inverses of each other at every fixed azimuth time but depend on
the azimuth time, the round trip starting from pixel (0, 0) of burst 0
returns range pixel 1 instead of 0 (the forward map converts at the mid
azimuth time 1, the inverse converts at the pixel azimuth time 0), an error
far above the 1e-9 tolerance. -/
theorem c1_pixel_time_roundtrip_counterexample :
    times_to_pixel_conversion groundRangeChannel
        (pixel_to_times_conversion groundRangeChannel 0 0 (some 0)).1
        (pixel_to_times_conversion groundRangeChannel 0 0 (some 0)).2 (some 0)
      = Except.ok (0, 1) ∧
    (Except.ok ((0 : ℚ), (1 : ℚ)) : Except String (ℚ × ℚ)) ≠ Except.ok (0, 0) ∧
    |(1 : ℚ) - 0| > 1 / 1000000000 := by
  refine ⟨?_, by simp, by norm_num⟩
  have hmid : midAzimuthTime groundRangeChannel = 1 := by
    norm_num [midAzimuthTime, computeAzimuthAxis, groundRangeChannel, List.range_succ]
  have hp : pixel_to_times_conversion groundRangeChannel 0 0 (some 0) = (0, 1) := by
    rw [pixel_to_times_conversion, hmid]
    norm_num [groundRangeChannel]
  rw [hp]
  norm_num [times_to_pixel_conversion, groundRangeChannel]

/-- C5 witness: a concrete in-bounds crop with output quantity equal to the
native quantity returns exactly the transposed calibration-scaled read, and
the result satisfies the identity characterization. -/
theorem c5_identity_radiometric_conversion_witness :
    iceye_read_data 1000 50 (fun _ => [[(7 : ℚ)]]) SARRadiometricQuantity.beta_nought
        SARRadiometricQuantity.beta_nought (fun _ _ => [[99]]) 50 10 (2, 2)
      = Except.ok (transposeLL [[(7 : ℚ)]]) ∧
    transposeLL [[(7 : ℚ)]]
      = transposeLL ((fun _ => [[(7 : ℚ)]]) (iceye_target_block 50 10 (2, 2))) := by
  have hok : iceye_read_data 1000 50 (fun _ => [[(7 : ℚ)]])
      SARRadiometricQuantity.beta_nought SARRadiometricQuantity.beta_nought
      (fun _ _ => [[99]]) 50 10 (2, 2) = Except.ok (transposeLL [[(7 : ℚ)]]) := by
    have h := (read_data_boundary_cases 1000 50 (fun _ => [[(7 : ℚ)]])
      SARRadiometricQuantity.beta_nought SARRadiometricQuantity.beta_nought
      (fun _ _ => [[99]]) 50 10 2 2).2.2 (by norm_num) (by norm_num) (by norm_num)
      (by norm_num)
    rw [h, if_neg (by simp)]
  exact ⟨hok, (c5_identity_radiometric_conversion.1 1000 50 (fun _ => [[(7 : ℚ)]])
    SARRadiometricQuantity.beta_nought (fun _ _ => [[99]]) (fun _ _ => [[99]])
    50 10 (2, 2)).2 (transposeLL [[(7 : ℚ)]]) hok⟩

end SCT
